import Mathlib

set_option maxRecDepth 100000

/-!
Shallow embedding of the Query Resolution Pipeline of the repository
(`sql_guard.py`, `query_templates.py`, `chatbot_app.py`, `narration.py`).

Strings are modelled as `List Char` wrapped in Lean `String`s; Python's
`re` operations used by the source are implemented as explicit scans with
the same semantics (leftmost match, greedy character classes,
non-overlapping `findall`).  Case mapping is modelled on the ASCII range
(the source only ever upper-cases SQL text and lower-cases keywords,
both effectively ASCII for the comparisons performed).
-/

/-- Python's `\s` character class and `str.strip` whitespace, ASCII range:
space, tab, newline, carriage return, vertical tab, form feed. -/
def isWS (c : Char) : Bool :=
  c = ' ' || c = '\t' || c = '\n' || c = '\r' || c = '\x0b' || c = '\x0c'

/-- Python's `\w` word-character class: alphanumerics and underscore.
Non-ASCII codepoints are conservatively treated as word characters
(Python's `\w` matches unicode letters; the guard only ever compares the
extracted tokens against ASCII table names, so any non-ASCII token is
rejected in both semantics). -/
def isWordChar (c : Char) : Bool :=
  c.isAlphanum || c = '_' || decide (128 ≤ c.toNat)

/-- `str.strip()` from the left. -/
def pyStripLeft (l : List Char) : List Char := l.dropWhile isWS

/-- `str.strip()` from the right. -/
def pyStripRight (l : List Char) : List Char := (l.reverse.dropWhile isWS).reverse

/-- Python `str.strip()`: drop whitespace at both ends. -/
def pyStrip (l : List Char) : List Char := pyStripRight (pyStripLeft l)

/-- `re.sub(r'\n+', ' ', s)`: state-passing scan replacing each maximal
run of newlines with a single space (the flag records whether the
previous character was a newline). -/
def subNlAux : Bool → List Char → List Char
  | _, [] => []
  | prevNl, c :: rest =>
    if c = '\n' then
      (if prevNl then [] else [' ']) ++ subNlAux true rest
    else c :: subNlAux false rest

/-- `re.sub(r'\n+', ' ', s)`. -/
def subNl (l : List Char) : List Char := subNlAux false l

/-- `re.sub(r';+$', '', s)`: remove the trailing run of semicolons. -/
def stripSemis (l : List Char) : List Char :=
  (l.reverse.dropWhile (fun c => c = ';')).reverse

/-- `re.sub(r'\s+', ' ', s)`: state-passing scan replacing each maximal
run of whitespace with a single space. -/
def collapseAux : Bool → List Char → List Char
  | _, [] => []
  | prevWS, c :: rest =>
    if isWS c then
      (if prevWS then [] else [' ']) ++ collapseAux true rest
    else c :: collapseAux false rest

/-- `re.sub(r'\s+', ' ', s)`. -/
def collapseWS (l : List Char) : List Char := collapseAux false l

/-- The normalization pipeline of `sanitize_sql` (lines 45-50 of
`sql_guard.py`): `strip`, collapse newline runs, strip trailing
semicolons, collapse whitespace runs. -/
def normalizeSql (l : List Char) : List Char :=
  collapseWS (stripSemis (subNl (pyStrip l)))

/-- `str.upper()` (ASCII case mapping). -/
def upperL (l : List Char) : List Char := l.map Char.toUpper

/-- `str.lower()` (ASCII case mapping). -/
def lowerL (l : List Char) : List Char := l.map Char.toLower

/-- Python's substring test `pat in s`. -/
def containsSub : List Char → List Char → Bool
  | pat, [] => pat.isEmpty
  | pat, c :: rest => pat.isPrefixOf (c :: rest) || containsSub pat rest

/-- One attempted match of `KW\b` at the head of `l`: the keyword is a
literal prefix and the following position is a word boundary (end of
string or a non-word character). -/
def matchKwAt (kw : List Char) (l : List Char) : Bool :=
  kw.isPrefixOf l &&
    (match l.drop kw.length with
     | [] => true
     | d :: _ => !isWordChar d)

/-- `re.search(r'\bKW\b', s)` for a keyword made of word characters:
scan every position, tracking whether the previous character was a word
character (the boundary before the match). -/
def searchWord (kw : List Char) : Bool → List Char → Bool
  | _, [] => false
  | prevWord, c :: rest =>
    (!prevWord && matchKwAt kw (c :: rest)) || searchWord kw (isWordChar c) rest

/-- One step of matching `\s+(\w+)` after a literal keyword: returns the
captured word token and the rest of the input after it, or `none` when
either run is empty. -/
def captureTableAfter (l : List Char) : Option (List Char × List Char) :=
  let ws := l.takeWhile isWS
  let afterWs := l.dropWhile isWS
  let word := afterWs.takeWhile isWordChar
  if ws.isEmpty || word.isEmpty then none
  else some (word, afterWs.dropWhile isWordChar)

/-- Scan engine for `re.findall(r'\bFROM\s+(\w+)', s)`: leftmost,
non-overlapping scan; the flag tracks whether the previous character is
a word character (for the `\b` before `FROM`).  The fuel argument is an
upper bound on the remaining input length, giving structural recursion;
the wrapper instantiates it with the input length. -/
def fromTablesAux : Nat → Bool → List Char → List (List Char)
  | 0, _, _ => []
  | _, _, [] => []
  | fuel + 1, prevWord, c :: rest =>
    if !prevWord && "FROM".data.isPrefixOf (c :: rest) then
      match captureTableAfter ((c :: rest).drop 4) with
      | some (word, cont) => word :: fromTablesAux fuel true cont
      | none => fromTablesAux fuel (isWordChar c) rest
    else fromTablesAux fuel (isWordChar c) rest

/-- `re.findall(r'\bFROM\s+(\w+)', s)`. -/
def fromTables (prevWord : Bool) (l : List Char) : List (List Char) :=
  fromTablesAux l.length prevWord l

/-- Scan engine for `re.findall(r'JOIN\s+(\w+)', s)` (note: the
source's findall pattern for joins has no leading word boundary):
leftmost, non-overlapping scan, fueled as in `fromTablesAux`. -/
def joinTablesAux : Nat → List Char → List (List Char)
  | 0, _ => []
  | _, [] => []
  | fuel + 1, c :: rest =>
    if "JOIN".data.isPrefixOf (c :: rest) then
      match captureTableAfter ((c :: rest).drop 4) with
      | some (word, cont) => word :: joinTablesAux fuel cont
      | none => joinTablesAux fuel rest
    else joinTablesAux fuel rest

/-- `re.findall(r'JOIN\s+(\w+)', s)`. -/
def joinTables (l : List Char) : List (List Char) :=
  joinTablesAux l.length l

/-- The error taxonomy of the guard (`SQLSecurityException` sites in
`sql_guard.py`). -/
inductive GuardError
  | noSqlBlockFound
  | emptyQuery
  | notSelect
  | forbiddenKeyword (kw : String)
  | multipleStatements
  | commentFound
  | disallowedTable (t : String)
  | disallowedJoin (t : String)
deriving DecidableEq

/-- The forbidden-keyword list of `sanitize_sql`, in declared order. -/
def forbiddenKeywords : List String :=
  ["INSERT", "UPDATE", "DELETE", "DROP", "ALTER", "CREATE",
   "ATTACH", "COPY", "EXPORT", "IMPORT", "PRAGMA", "CALL",
   "LOAD", "SET", "RESET", "EXPLAIN", "DESCRIBE", "EXEC"]

/-- `sanitize_sql` of `sql_guard.py`: empty check on the raw input,
normalization, SELECT-shape check, forbidden keywords (first match in
declared order), single statement, comments, FROM table allowlist,
JOIN table allowlist.  Returns the normalized query on success. -/
def sanitizeSql (sql : String) : Except GuardError String :=
  if sql.data.isEmpty then .error .emptyQuery
  else
    let clean := normalizeSql sql.data
    let up := upperL clean
    if !("SELECT".data.isPrefixOf (pyStrip up)) then .error .notSelect
    else
      match forbiddenKeywords.find? (fun kw => searchWord kw.data false up) with
      | some kw => .error (.forbiddenKeyword kw)
      | none =>
        if clean.contains ';' then .error .multipleStatements
        else if containsSub "--".data clean || containsSub "/*".data clean then
          .error .commentFound
        else
          match (fromTables false up).find? (fun t => !(t == "SALES".data)) with
          | some t => .error (.disallowedTable ⟨t⟩)
          | none =>
            if searchWord "JOIN".data false up then
              match (joinTables up).find? (fun t => !(t == "SALES".data)) with
              | some t => .error (.disallowedJoin ⟨t⟩)
              | none => .ok ⟨clean⟩
            else .ok ⟨clean⟩

/-- Split `l` at the first occurrence of `pat`, returning the part
before the occurrence and the part after it. -/
def splitFirstAt (pat : List Char) : List Char → Option (List Char × List Char)
  | [] => if pat.isEmpty then some ([], []) else none
  | c :: rest =>
    if pat.isPrefixOf (c :: rest) then some ([], (c :: rest).drop pat.length)
    else
      match splitFirstAt pat rest with
      | some (pre, post) => some (c :: pre, post)
      | none => none

/-- Scan for the first position where a case-insensitive literal
"```sql" starts and a closing "```" exists after it; the capture is the
text in between, stripped (this is the first match of the source's
pattern, whose surrounding greedy and lazy whitespace groups are
absorbed by the final `strip`). -/
def extractAux : List Char → Option String
  | [] => none
  | c :: rest =>
    if ['`', '`', '`', 's', 'q', 'l'].isPrefixOf (lowerL ((c :: rest).take 6)) then
      match splitFirstAt ['`', '`', '`'] ((c :: rest).drop 6) with
      | some (content, _) => some ⟨pyStrip content⟩
      | none => extractAux rest
    else extractAux rest

/-- `extract_sql_from_response` of `sql_guard.py`: first fenced SQL
block, stripped; `none` when no block matches. -/
def extractSqlFromResponse (response : String) : Option String :=
  extractAux response.data

/-- `validate_and_sanitize_sql` of `sql_guard.py`: extract the block
(`None` and the empty extraction are both rejected as missing block),
then sanitize. -/
def validateAndSanitizeSql (llmResponse : String) : Except GuardError String :=
  match extractSqlFromResponse llmResponse with
  | none => .error .noSqlBlockFound
  | some sql =>
    if sql.data.isEmpty then .error .noSqlBlockFound
    else sanitizeSql sql

/-- The user-facing error strings of `sql_guard.py`. -/
def errMessage : GuardError → String
  | .noSqlBlockFound => "SQLコードブロックが見つかりません"
  | .emptyQuery => "空のSQLクエリです"
  | .notSelect => "SELECT文のみ許可されています"
  | .forbiddenKeyword kw => "禁止されたキーワードが含まれています: " ++ kw
  | .multipleStatements => "複数のSQL文は実行できません"
  | .commentFound => "SQLコメントは許可されていません"
  | .disallowedTable t => "salesテーブル以外のアクセスは禁止されています: " ++ t
  | .disallowedJoin t => "salesテーブル以外との結合は禁止されています: " ++ t

/-- `is_sql_safe` of `sql_guard.py`. -/
def isSqlSafe (sql : String) : Bool × String :=
  match sanitizeSql sql with
  | .ok _ => (true, "")
  | .error e => (false, errMessage e)

/-- `QueryTemplate` of `query_templates.py`. -/
structure QueryTemplate where
  name : String
  sql : String
  description : String
  keywords : List String
deriving DecidableEq, Inhabited

/-- `get_fallback_templates` of `query_templates.py`: the four canned
queries, in registry order, with their trigger keywords.  The `sql`
fields are the Python triple-quoted literals after the authoring-time
`strip()`. -/
def getFallbackTemplates : List QueryTemplate :=
  [{ name := "月次カテゴリ別売上",
     sql := "SELECT \n    date_trunc('month', date) AS month,\n    category,\n    SUM(revenue) AS total_revenue,\n    SUM(units) AS total_units\nFROM sales \nGROUP BY date_trunc('month', date), category\nORDER BY month, category",
     description := "月毎のカテゴリー別売上分析",
     keywords := ["月", "カテゴリ", "月毎", "月別", "category", "month"] },
   { name := "チャネル別売上",
     sql := "SELECT \n    sales_channel,\n    SUM(revenue) AS total_revenue,\n    SUM(units) AS total_units,\n    COUNT(*) AS transaction_count\nFROM sales \nGROUP BY sales_channel\nORDER BY total_revenue DESC",
     description := "販売チャネル別の売上分析",
     keywords := ["チャネル", "チャンネル", "channel", "販売", "経路"] },
   { name := "地域別売上",
     sql := "SELECT \n    region,\n    SUM(revenue) AS total_revenue,\n    SUM(units) AS total_units,\n    COUNT(*) AS transaction_count\nFROM sales \nGROUP BY region\nORDER BY total_revenue DESC",
     description := "地域別の売上分析",
     keywords := ["地域", "地方", "region", "エリア", "場所"] },
   { name := "顧客セグメント別売上",
     sql := "SELECT \n    customer_segment,\n    SUM(revenue) AS total_revenue,\n    SUM(units) AS total_units,\n    COUNT(*) AS transaction_count\nFROM sales \nGROUP BY customer_segment\nORDER BY total_revenue DESC",
     description := "顧客セグメント別の売上分析",
     keywords := ["顧客", "セグメント", "segment", "customer", "クライアント"] }]

/-- `get_default_query` of `query_templates.py`. -/
def getDefaultQuery : String :=
  "SELECT \n    SUM(revenue) AS total_revenue,\n    SUM(units) AS total_units,\n    COUNT(*) AS total_transactions\nFROM sales"

/-- The template-name string returned for the default fallback query. -/
def defaultTemplateLabel : String := "デフォルト（総売上）"

/-- The scoring loop body of `find_best_template`: one pass adding 1
per keyword found (case-insensitive substring), and a second pass
adding 1 more per found keyword longer than 3 characters. -/
def templateScore (uqLower : List Char) (t : QueryTemplate) : Nat :=
  t.keywords.foldl
    (fun acc k => if containsSub (lowerL k.data) uqLower then acc + 1 else acc) 0
  + t.keywords.foldl
    (fun acc k =>
      if k.length > 3 && containsSub (lowerL k.data) uqLower then acc + 1 else acc) 0

/-- The selection loop of `find_best_template`: running best template
and maximum score, updated only on a strictly greater score. -/
def selectBest (uqLower : List Char) :
    Option QueryTemplate → Nat → List QueryTemplate → Option QueryTemplate × Nat
  | best, maxScore, [] => (best, maxScore)
  | best, maxScore, t :: rest =>
    let s := templateScore uqLower t
    if s > maxScore then selectBest uqLower (some t) s rest
    else selectBest uqLower best maxScore rest

/-- `find_best_template` of `query_templates.py`: score every template,
keep the first one with the strictly maximal score; when none matched
(best is `None` or the maximum is 0) return the default query with the
default label. -/
def findBestTemplate (userQuery : String) : String × String :=
  let uqLower := lowerL userQuery.data
  let bm := selectBest uqLower none 0 getFallbackTemplates
  match bm.1 with
  | none => (getDefaultQuery, defaultTemplateLabel)
  | some t => if bm.2 = 0 then (getDefaultQuery, defaultTemplateLabel) else (t.sql, t.name)

/-- The two operations of the abstract `LLMClient` of `llm_client.py`;
an `Except` value models a call that raises. -/
structure LLMClientModel where
  genSql : String → String → Except String String
  genSummary : String → String → String → Except String String

/-- The collaborators and module-level state `process_user_query` of
`chatbot_app.py` reads: the loaded data frame (abstract, `none` when
loading failed), the optional LLM client, the schema description built
from the data, and the DuckDB execution call (an `Except` models an
engine error). -/
structure PipelineEnv (σ ρ : Type) where
  salesData : Option σ
  llmClient : Option LLMClientModel
  schemaInfo : σ → String
  execRaw : String → Except String (List ρ)

/-- `execute_sql_query` of `chatbot_app.py`: run the query; any engine
error is caught and an empty data frame returned. -/
def executeSqlQuery {σ ρ : Type} (env : PipelineEnv σ ρ) (sql : String) : List ρ :=
  match env.execRaw sql with
  | .ok rows => rows
  | .error _ => []

/-- The tuple `process_user_query` returns, plus `execTrace`:
instrumentation recording every SQL string handed to
`execute_sql_query`, in order, used to state the no-third-source
invariant. -/
structure PipelineResult (ρ : Type) where
  executedSql : String
  resultDf : List ρ
  usedFallback : Bool
  templateName : Option String
  execTrace : List String
deriving DecidableEq

/-- The fallback tail of `process_user_query` (lines 113-119 of
`chatbot_app.py`): resolve a template, execute it, mark fallback. -/
def fallbackRun {σ ρ : Type} (env : PipelineEnv σ ρ) (userQuery : String)
    (tr : List String) : PipelineResult ρ :=
  let st := findBestTemplate userQuery
  let df := executeSqlQuery env st.1
  ⟨st.1, df, true, some st.2, tr ++ [st.1]⟩

/-- `process_user_query` of `chatbot_app.py`: no data → message; LLM
available → generate, validate, execute; any security violation,
generation error, or empty result forces the fallback tail. -/
def processUserQuery {σ ρ : Type} (env : PipelineEnv σ ρ) (userQuery : String) :
    PipelineResult ρ :=
  match env.salesData with
  | none => ⟨"データが読み込まれていません。", [], true, none, []⟩
  | some sd =>
    match env.llmClient with
    | none => fallbackRun env userQuery []
    | some llm =>
      match llm.genSql userQuery (env.schemaInfo sd) with
      | .error _ => fallbackRun env userQuery []
      | .ok resp =>
        match validateAndSanitizeSql resp with
        | .error _ => fallbackRun env userQuery []
        | .ok q =>
          if (executeSqlQuery env q).isEmpty then fallbackRun env userQuery [q]
          else ⟨q, executeSqlQuery env q, false, none, [q]⟩

/-- Model of the pandas frames the summarizer reads: a row count and
the numeric and non-numeric columns in frame order (numeric columns
restricted to integer values; the source only ever feeds aggregate
counts and sums to the summarizer).  `rowCount = 0` models
`DataFrame.empty`. -/
structure ModelDF where
  rowCount : Nat
  numCols : List (String × List Int)
  catCols : List (String × List String)

/-- Digit grouping for Python's `:,` format: commas every three digits
from the right (input is the reversed digit list; `i` is the index from
the right). -/
def commaAux : Nat → List Char → List Char
  | _, [] => []
  | i, c :: rest =>
    (if i ≠ 0 && i % 3 = 0 then [','] else []) ++ c :: commaAux (i + 1) rest

/-- Python `format(n, ',')` for naturals. -/
def fmtCommaNat (n : Nat) : String :=
  ⟨(commaAux 0 (toString n).data.reverse).reverse⟩

/-- Python `f"{v:,.0f}"` for an exact integer value. -/
def fmtCommaInt (v : Int) : String :=
  if v < 0 then "-" ++ fmtCommaNat v.natAbs else fmtCommaNat v.natAbs

/-- Round-half-to-even of `num / den`, modelling Python's float
rounding in `f"{v:,.0f}"` as exact rational rounding (the sign of a
floating negative zero, values beyond 2^53 and ties not representable
in binary are not modelled; division by zero, which in pandas yields
NaN, is modelled as 0 and never exercised by the theorems below). -/
def roundHalfEven (num : Int) (den : Nat) : Int :=
  if den = 0 then 0
  else
    let d : Int := den
    let q := num.fdiv d
    let r := num - q * d
    if 2 * r < d then q
    else if 2 * r > d then q + 1
    else if q % 2 = 0 then q else q + 1

/-- The revenue-like column labels of `create_fallback_summary`. -/
def revenueLikeNames : List String := ["revenue", "total_revenue", "sales", "amount"]

/-- The unit-like column labels of `create_fallback_summary`. -/
def unitLikeNames : List String := ["units", "count", "quantity"]

/-- The summary lines emitted for one numeric column
(`create_fallback_summary`, lines 93-101 of `narration.py`). -/
def numColLines (col : String × List Int) : List String :=
  let lower : String := ⟨lowerL col.1.data⟩
  if revenueLikeNames.contains lower then
    ["• " ++ col.1 ++ "の合計: " ++ fmtCommaInt col.2.sum,
     "• " ++ col.1 ++ "の平均: " ++ fmtCommaInt (roundHalfEven col.2.sum col.2.length)]
  else if unitLikeNames.contains lower then
    ["• " ++ col.1 ++ "の合計: " ++ fmtCommaInt col.2.sum]
  else []

/-- `create_fallback_summary` of `narration.py`: the deterministic
rule-based summary (empty-result line; row count; stats for up to two
numeric columns; distinct count for up to one non-numeric column; a
note naming the template when one was used). -/
def createFallbackSummary (_userQuery _sql : String) (df : ModelDF)
    (templateName : Option String) : String :=
  if df.rowCount = 0 then "• 指定された条件に該当するデータが見つかりませんでした"
  else
    let parts := ["• " ++ fmtCommaNat df.rowCount ++ " 件のレコードが該当しました"]
      ++ ((df.numCols.take 2).map numColLines).flatten
      ++ ((df.catCols.take 1).map
          (fun col => "• " ++ col.1 ++ "のユニーク数: " ++ toString (col.2.dedup.length) ++ " 種類"))
      ++ (match templateName with
          | some n =>
            if n = "" then []
            else ["• 【注記】定型クエリ「" ++ n ++ "」を使用して分析しました"]
          | none => [])
    String.intercalate "\n" parts

/-- `DataFrame.head(200).to_csv(index=False)` for a `ModelDF`: header
row and up to 200 data rows, comma separated (column order modelled as
numeric columns then non-numeric ones; this string only ever feeds the
LLM summary call). -/
def dfToCsv (df : ModelDF) : String :=
  let header := String.intercalate ","
    (df.numCols.map Prod.fst ++ df.catCols.map Prod.fst)
  let row := fun (i : Nat) => String.intercalate ","
    (df.numCols.map (fun col => toString (col.2.getD i 0))
      ++ df.catCols.map (fun col => col.2.getD i ""))
  String.intercalate "\n" (header :: (List.range (min df.rowCount 200)).map row) ++ "\n"

/-- `generate_summary_with_llm` of `narration.py`: call the LLM on the
serialized result; any raised error is caught INSIDE this function and
turned into the error-message string it returns. -/
def generateSummaryWithLlm (llm : LLMClientModel) (userQuery sql : String)
    (df : ModelDF) : String :=
  match llm.genSummary userQuery sql (dfToCsv df) with
  | .ok s => s
  | .error e => "サマリー生成中にエラーが発生しました: " ++ e

/-- `generate_analysis_summary` of `narration.py`: empty result →
rule-based summary; LLM available and not fallback → LLM summary (note
that `generate_summary_with_llm` never raises, so the `except` branch
of the source that would fall through to the rule-based summary is
unreachable); otherwise rule-based summary. -/
def generateAnalysisSummary (llmClient : Option LLMClientModel)
    (userQuery sql : String) (df : ModelDF) (isFallback : Bool)
    (templateName : Option String) : String :=
  if df.rowCount = 0 then createFallbackSummary userQuery sql df templateName
  else
    match llmClient with
    | some llm =>
      if !isFallback then
        let llmSummary := generateSummaryWithLlm llm userQuery sql df
        match templateName with
        | some n =>
          if n = "" then llmSummary
          else llmSummary ++ "\n\n【注記】定型クエリ「" ++ n ++ "」を使用して分析しました"
        | none => llmSummary
      else createFallbackSummary userQuery sql df templateName
    | none => createFallbackSummary userQuery sql df templateName

/-- The maximum template score over a registry suffix (0 when empty,
matching the loop's initial `max_score = 0`). -/
def maxScoreOf (uqLower : List Char) (ts : List QueryTemplate) : Nat :=
  ts.foldr (fun t m => max (templateScore uqLower t) m) 0

/-- Modelled from the spec (§4.2): the per-template score written as a
single sum — +1 for each keyword found as a case-insensitive substring,
and +1 more (2 in total) when that keyword is longer than 3
characters. -/
def specScore (uqLower : List Char) (t : QueryTemplate) : Nat :=
  (t.keywords.map (fun k =>
    if containsSub (lowerL k.data) uqLower then (if k.length > 3 then 2 else 1)
    else 0)).sum

/-- First-maximum selection over the registry with the code's score:
the shape `find_best_template`'s loop computes. -/
def firstMaxResolve (uq : String) : String × String :=
  let u := lowerL uq.data
  let m := maxScoreOf u getFallbackTemplates
  if m = 0 then (getDefaultQuery, defaultTemplateLabel)
  else
    match getFallbackTemplates.find? (fun t => templateScore u t == m) with
    | some t => (t.sql, t.name)
    | none => (getDefaultQuery, defaultTemplateLabel)

/-- Modelled from the spec (§4.2): resolve by tracking the maximum
score and the first template achieving it (ties favor the earlier
template); when the maximum is 0, return the default aggregate query
with the default label. -/
def specResolve (uq : String) : String × String :=
  let u := lowerL uq.data
  let m := getFallbackTemplates.foldr (fun t mx => max (specScore u t) mx) 0
  if m = 0 then (getDefaultQuery, defaultTemplateLabel)
  else
    match getFallbackTemplates.find? (fun t => specScore u t == m) with
    | some t => (t.sql, t.name)
    | none => (getDefaultQuery, defaultTemplateLabel)

/-- A pipeline environment with data loaded but no LLM client, over an
engine that returns no rows. -/
def noLlmEnv : PipelineEnv Unit Unit :=
  { salesData := some ()
    llmClient := none
    schemaInfo := fun _ => ""
    execRaw := fun _ => .ok [] }

/-- An LLM client whose SQL generation returns a well-formed fenced
block. -/
def fixedSqlLlm : LLMClientModel :=
  { genSql := fun _ _ => .ok "```sql\nSELECT * FROM sales\n```"
    genSummary := fun _ _ _ => .ok "ok" }

/-- A pipeline environment whose LLM produces a valid query but whose
engine returns zero rows for every query. -/
def emptyResultEnv : PipelineEnv Unit Unit :=
  { salesData := some ()
    llmClient := some fixedSqlLlm
    schemaInfo := fun _ => ""
    execRaw := fun _ => .ok [] }

/-- An LLM client whose summary call always raises. -/
def failingSummaryLlm : LLMClientModel :=
  { genSql := fun _ _ => .error "unused"
    genSummary := fun _ _ _ => .error "boom" }

/-- A one-row result whose single numeric column name matches none of
the revenue-like or unit-like labels. -/
def oneNumColDf : ModelDF :=
  { rowCount := 1, numCols := [("month", [5])], catCols := [] }

/-- No two adjacent characters are both whitespace. -/
def noAdjWS (l : List Char) : Prop :=
  List.Chain' (fun a b => ¬(isWS a = true ∧ isWS b = true)) l

theorem captureTableAfter_length {l word cont : List Char}
    (h : captureTableAfter l = some (word, cont)) : cont.length ≤ l.length := by
  simp only [captureTableAfter] at h
  split at h
  · exact absurd h (by simp)
  · have h1 := List.Sublist.length_le
      (List.dropWhile_sublist (l := l.dropWhile isWS) (p := isWordChar))
    have h2 := List.Sublist.length_le
      (List.dropWhile_sublist (l := l) (p := isWS))
    simp only [Option.some.injEq, Prod.mk.injEq] at h
    obtain ⟨h3, h4⟩ := h
    subst h4
    omega

/-- Everything run-time success of `sanitizeSql` records: the input was
nonempty, the output is the normalized input, and every check passed on
the output itself (the checks run on the normalized string, which is
what is returned). -/
theorem sanitizeSql_ok_anatomy {s v : String} (h : sanitizeSql s = .ok v) :
    s.data.isEmpty = false ∧
    v.data = normalizeSql s.data ∧
    "SELECT".data.isPrefixOf (pyStrip (upperL v.data)) = true ∧
    forbiddenKeywords.find? (fun kw => searchWord kw.data false (upperL v.data)) = none ∧
    v.data.contains ';' = false ∧
    containsSub "--".data v.data = false ∧
    containsSub "/*".data v.data = false ∧
    (fromTables false (upperL v.data)).find? (fun t => !(t == "SALES".data)) = none ∧
    (searchWord "JOIN".data false (upperL v.data) = true →
      (joinTables (upperL v.data)).find? (fun t => !(t == "SALES".data)) = none) := by
  simp only [sanitizeSql] at h
  split at h
  · exact absurd h (by simp)
  · rename_i hne
    split at h
    · exact absurd h (by simp)
    · rename_i hsel
      split at h
      · exact absurd h (by simp)
      · rename_i hkw
        split at h
        · exact absurd h (by simp)
        · rename_i hsemi
          split at h
          · exact absurd h (by simp)
          · rename_i hcomm
            split at h
            · exact absurd h (by simp)
            · rename_i hfrom
              split at h
              · split at h
                · exact absurd h (by simp)
                · rename_i hjoin hjfind
                  have hv : v.data = normalizeSql s.data := by
                    have := (Except.ok.injEq _ _).mp h.symm
                    subst this
                    rfl
                  rw [hv] at *
                  refine ⟨by simpa using hne, rfl, by simpa using hsel,
                    hkw, by simpa using hsemi, ?_, ?_, hfrom, fun _ => hjfind⟩
                  · exact (by simpa using hcomm : _ ∧ _).1
                  · exact (by simpa using hcomm : _ ∧ _).2
              · rename_i hjoin
                have hv : v.data = normalizeSql s.data := by
                  have := (Except.ok.injEq _ _).mp h.symm
                  subst this
                  rfl
                rw [hv] at *
                refine ⟨by simpa using hne, rfl, by simpa using hsel,
                  hkw, by simpa using hsemi, ?_, ?_, hfrom,
                  fun hj => absurd hj (by simpa using hjoin)⟩
                · exact (by simpa using hcomm : _ ∧ _).1
                · exact (by simpa using hcomm : _ ∧ _).2

/-- A success of the public entry point comes from a success of
`sanitizeSql` on the extracted block. -/
theorem validate_ok_from_sanitize {r v : String}
    (h : validateAndSanitizeSql r = .ok v) : ∃ s, sanitizeSql s = .ok v := by
  unfold validateAndSanitizeSql at h
  split at h
  · exact absurd h (by simp)
  · rename_i sql hx
    split at h
    · exact absurd h (by simp)
    · exact ⟨sql, h⟩

/-- C1: every string returned by the Guard's validation (`sanitize_sql`,
and hence `validate_and_sanitize_sql`) contains no `;` character, no
`--` substring, no `/*` substring, and no table name other than `sales`
in any FROM clause (word token captured after `FROM`) or JOIN clause
(word token captured after `JOIN`, checked when a whole-word `JOIN` is
present). -/
theorem c1_validated_query_allowlist (s v : String)
    (h : sanitizeSql s = .ok v ∨ validateAndSanitizeSql s = .ok v) :
    v.data.contains ';' = false ∧
    containsSub "--".data v.data = false ∧
    containsSub "/*".data v.data = false ∧
    (∀ t ∈ fromTables false (upperL v.data), t = "SALES".data) ∧
    (searchWord "JOIN".data false (upperL v.data) = true →
      ∀ t ∈ joinTables (upperL v.data), t = "SALES".data) := by
  have hok : ∃ s', sanitizeSql s' = .ok v := by
    rcases h with h | h
    · exact ⟨s, h⟩
    · exact validate_ok_from_sanitize h
  obtain ⟨s', hs⟩ := hok
  obtain ⟨-, -, -, -, hsemi, hdash, hstar, hfrom, hjoin⟩ := sanitizeSql_ok_anatomy hs
  refine ⟨hsemi, hdash, hstar, ?_, ?_⟩
  · intro t ht
    have := List.find?_eq_none.mp hfrom t ht
    simpa using this
  · intro hj t ht
    have := List.find?_eq_none.mp (hjoin hj) t ht
    simpa using this

/-- C1 witness: the allowlist properties hold for the concrete validated
query `SELECT * FROM sales`. -/
theorem c1_witness :
    ("SELECT * FROM sales" : String).data.contains ';' = false ∧
    containsSub "--".data ("SELECT * FROM sales" : String).data = false ∧
    containsSub "/*".data ("SELECT * FROM sales" : String).data = false ∧
    (∀ t ∈ fromTables false (upperL ("SELECT * FROM sales" : String).data),
      t = "SALES".data) ∧
    (searchWord "JOIN".data false (upperL ("SELECT * FROM sales" : String).data) = true →
      ∀ t ∈ joinTables (upperL ("SELECT * FROM sales" : String).data),
        t = "SALES".data) :=
  c1_validated_query_allowlist "SELECT * FROM sales" "SELECT * FROM sales"
    (Or.inl (by rfl))

/-- C2 counterexample: on `"SELECT * FROM sales; DROP TABLE sales"` the
guard fails with `ForbiddenKeyword "DROP"`, not with
`MultipleStatements` as the claim states: in `sanitize_sql` the
forbidden-keyword scan (lines 56-66) runs before the semicolon check
(lines 68-70). -/
theorem c2_counterexample :
    sanitizeSql "SELECT * FROM sales; DROP TABLE sales"
      = .error (.forbiddenKeyword "DROP") ∧
    sanitizeSql "SELECT * FROM sales; DROP TABLE sales"
      ≠ .error .multipleStatements := by
  have h1 : sanitizeSql "SELECT * FROM sales; DROP TABLE sales"
      = .error (.forbiddenKeyword "DROP") := rfl
  exact ⟨h1, by rw [h1]; simp⟩

/-- C2 amended: whenever the normalized query passes the SELECT-shape
check and the forbidden-keyword scan finds a keyword (the first in
declared order), the guard fails with that `ForbiddenKeyword` — the
keyword check precedes the semicolon check, so the scenario input fails
with `ForbiddenKeyword "DROP"`. -/
theorem c2_amended (s : String) (kw : String)
    (hne : s.data.isEmpty = false)
    (hsel : "SELECT".data.isPrefixOf (pyStrip (upperL (normalizeSql s.data))) = true)
    (hkw : forbiddenKeywords.find?
      (fun k => searchWord k.data false (upperL (normalizeSql s.data))) = some kw) :
    sanitizeSql s = .error (.forbiddenKeyword kw) := by
  simp only [sanitizeSql, hne, hsel, hkw, Bool.not_true, Bool.false_eq_true,
    if_false, if_true]

/-- C2 amended witness: the scenario input instantiates the amended
claim with keyword `DROP`. -/
theorem c2_witness :
    ("SELECT * FROM sales; DROP TABLE sales" : String).data.isEmpty = false ∧
    sanitizeSql "SELECT * FROM sales; DROP TABLE sales"
      = .error (.forbiddenKeyword "DROP") :=
  ⟨by decide, c2_amended "SELECT * FROM sales; DROP TABLE sales" "DROP"
    (by decide) (by decide) (by rfl)⟩

/-- C3 counterexample: the input `";"` normalizes to the empty string
but fails with `NotASelect`, not `EmptyQuery` — the empty check of
`sanitize_sql` runs on the raw input before normalization. -/
theorem c3_counterexample :
    normalizeSql (";" : String).data = [] ∧
    sanitizeSql ";" = .error .notSelect ∧
    sanitizeSql ";" ≠ .error .emptyQuery := by
  have h1 : sanitizeSql ";" = .error .notSelect := rfl
  exact ⟨rfl, h1, by rw [h1]; simp⟩

/-- C3 amended: a candidate whose normalized form is empty fails —
with `EmptyQuery` when the raw input itself is empty (the emptiness
check precedes normalization), and with `NotASelect` otherwise (the
empty normalized text does not start with `SELECT`). -/
theorem c3_amended (s : String) (h : normalizeSql s.data = []) :
    sanitizeSql s = .error (if s.data.isEmpty then .emptyQuery else .notSelect) := by
  by_cases he : s.data.isEmpty
  · simp only [sanitizeSql, he, if_true]
  · have he' : s.data.isEmpty = false := by simpa using he
    have hp : "SELECT".data.isPrefixOf (pyStrip (upperL (normalizeSql s.data))) = false := by
      rw [h]
      rfl
    simp only [sanitizeSql, he', hp, Bool.not_false, if_true, if_false,
      Bool.false_eq_true]

/-- C3 amended witness: at the concrete input `";"` the amended claim
yields the `NotASelect` failure. -/
theorem c3_witness :
    normalizeSql (";" : String).data = [] ∧
    sanitizeSql ";" = .error (if (";" : String).data.isEmpty then .emptyQuery
      else .notSelect) :=
  ⟨by decide, c3_amended ";" (by decide)⟩

theorem toNat_ofNat_valid {n : Nat} (h : n.isValidChar) :
    (Char.ofNat n).toNat = n := by
  rw [Char.ofNat, dif_pos h]
  rfl

theorem toLower_ne_backtick {c : Char} (h : c ≠ '`') : Char.toLower c ≠ '`' := by
  intro hc
  simp only [Char.toLower] at hc
  split at hc
  · rename_i hr
    obtain ⟨hr1, hr2⟩ := hr
    have hv : Nat.isValidChar (c.toNat + 32) := by
      left
      omega
    have h2 := congrArg Char.toNat hc
    rw [toNat_ofNat_valid hv] at h2
    have h3 : ('`').toNat = 96 := by decide
    omega
  · exact h hc

theorem isWS_ne_backtick {c : Char} (h : isWS c = true) : c ≠ '`' := by
  simp only [isWS, Bool.or_eq_true, decide_eq_true_eq] at h
  rcases h with ((((h | h) | h) | h) | h) | h <;> subst h <;> decide

theorem pyStrip_of_all_ws {l : List Char} (h : ∀ c ∈ l, isWS c = true) :
    pyStrip l = [] := by
  have h1 : pyStripLeft l = [] := List.dropWhile_eq_nil_iff.mpr h
  simp [pyStrip, h1, pyStripRight]

/-- A scan position whose character is not a backtick cannot start a
fenced block. -/
theorem extractAux_cons_of_ne {c : Char} {m : List Char} (hc : c ≠ '`') :
    extractAux (c :: m) = extractAux m := by
  simp only [extractAux]
  rw [if_neg]
  intro habs
  rw [List.take_succ_cons] at habs
  simp only [lowerL, List.map_cons, List.isPrefixOf, Bool.and_eq_true, beq_iff_eq] at habs
  exact toLower_ne_backtick hc habs.1.symm

/-- Scanning skips a region that contains no backtick. -/
theorem extractAux_append_of_no_backtick {pre l : List Char}
    (h : ∀ c ∈ pre, c ≠ '`') : extractAux (pre ++ l) = extractAux l := by
  induction pre with
  | nil => rfl
  | cons c pre ih =>
    rw [List.cons_append, extractAux_cons_of_ne (h c (by simp)),
      ih (fun d hd => h d (by simp [hd]))]

/-- Splitting at the first occurrence of the closing fence, when the
text before it holds no backtick. -/
theorem splitFirstAt_fence {content rest : List Char}
    (h : ∀ c ∈ content, c ≠ '`') :
    splitFirstAt ['`', '`', '`'] (content ++ ['`', '`', '`'] ++ rest)
      = some (content, rest) := by
  induction content with
  | nil =>
    show splitFirstAt ['`', '`', '`'] ('`' :: '`' :: '`' :: rest) = some ([], rest)
    simp [splitFirstAt, List.isPrefixOf]
  | cons c content ih =>
    have hc : c ≠ '`' := h c (by simp)
    have hfail : ((['`', '`', '`'] : List Char).isPrefixOf
        (c :: (content ++ ['`', '`', '`'] ++ rest))) = false := by
      have hb : (('`' : Char) == c) = false := beq_eq_false_iff_ne.mpr (Ne.symm hc)
      simp [List.isPrefixOf, hb]
    show splitFirstAt ['`', '`', '`'] (c :: (content ++ ['`', '`', '`'] ++ rest))
      = some (c :: content, rest)
    simp only [splitFirstAt, List.append_eq, hfail, Bool.false_eq_true, if_false]
    rw [ih (fun d hd => h d (by simp [hd]))]

/-- A fenced block at the head of the scan is extracted, its content
stripped. -/
theorem extractAux_block {content rest : List Char}
    (h : ∀ c ∈ content, c ≠ '`') :
    extractAux ("```sql".data ++ content ++ ['`', '`', '`'] ++ rest)
      = some ⟨pyStrip content⟩ := by
  show extractAux ('`' :: '`' :: '`' :: 's' :: 'q' :: 'l'
      :: (content ++ ['`', '`', '`'] ++ rest)) = some ⟨pyStrip content⟩
  have htake : List.take 6 ('`' :: '`' :: '`' :: 's' :: 'q' :: 'l'
      :: (content ++ ['`', '`', '`'] ++ rest)) = ['`', '`', '`', 's', 'q', 'l'] := by
    simp [List.take_succ_cons]
  have hdrop : List.drop 6 ('`' :: '`' :: '`' :: 's' :: 'q' :: 'l'
      :: (content ++ ['`', '`', '`'] ++ rest)) = content ++ ['`', '`', '`'] ++ rest := by
    simp
  simp only [extractAux, htake, hdrop, List.append_eq]
  rw [if_pos (by decide)]
  rw [splitFirstAt_fence h]

/-- `sanitize_sql` raises `EmptyQuery` only on the genuinely empty
string. -/
theorem sanitizeSql_ne_emptyQuery {s : String} (h : s.data.isEmpty = false) :
    sanitizeSql s ≠ .error .emptyQuery := by
  intro heq
  simp only [sanitizeSql, h, Bool.false_eq_true, if_false] at heq
  split at heq
  · simp at heq
  · split at heq
    · simp at heq
    · split at heq
      · simp at heq
      · split at heq
        · simp at heq
        · split at heq
          · simp at heq
          · split at heq
            · split at heq
              · simp at heq
              · simp at heq
            · simp at heq

/-- C10: through the public entry point `validate_and_sanitize_sql`,
the `EmptyQuery` branch of `sanitize_sql` is unreachable (no response
fails with `EmptyQuery`), and a response that is a fenced SQL block
with empty or whitespace-only content — preceded by any backtick-free
text and followed by anything — fails with `NoSqlBlockFound`: the
extraction strips the content and an empty extraction is treated as a
missing block. -/
theorem c10_ws_block_no_sql_block :
    (∀ r : String, validateAndSanitizeSql r ≠ .error .emptyQuery) ∧
    (∀ pre content post : String,
      (∀ c ∈ pre.data, c ≠ '`') →
      (∀ c ∈ content.data, isWS c = true) →
      validateAndSanitizeSql (pre ++ "```sql" ++ content ++ "```" ++ post)
        = .error .noSqlBlockFound) := by
  constructor
  · intro r heq
    unfold validateAndSanitizeSql at heq
    split at heq
    · simp at heq
    · split at heq
      · simp at heq
      · rename_i sql hx hne
        exact sanitizeSql_ne_emptyQuery (by simpa using hne) heq
  · intro pre content post hpre hws
    have hblock := @extractAux_block content.data post.data
      (fun c hc => isWS_ne_backtick (hws c hc))
    have hex : extractSqlFromResponse (pre ++ "```sql" ++ content ++ "```" ++ post)
        = some ⟨pyStrip content.data⟩ := by
      unfold extractSqlFromResponse
      rw [show (pre ++ "```sql" ++ content ++ "```" ++ post).data
          = pre.data ++ ("```sql".data ++ content.data ++ ['`', '`', '`'] ++ post.data)
          from by simp [String.data_append, List.append_assoc]]
      rw [extractAux_append_of_no_backtick hpre, hblock]
    rw [pyStrip_of_all_ws hws] at hex
    unfold validateAndSanitizeSql
    rw [hex]
    rfl

/-- C10 witness: a concrete response whose fenced SQL block holds only
whitespace fails with `NoSqlBlockFound`, and in particular not with
`EmptyQuery`. -/
theorem c10_witness :
    (∀ c ∈ ("Here is the query: " : String).data, c ≠ '`') ∧
    (∀ c ∈ ("\n \t " : String).data, isWS c = true) ∧
    validateAndSanitizeSql ("Here is the query: " ++ "```sql" ++ "\n \t " ++ "```" ++ " done.")
      = .error .noSqlBlockFound :=
  ⟨by decide, by decide,
    c10_ws_block_no_sql_block.2 "Here is the query: " "\n \t " " done."
      (by decide) (by decide)⟩

theorem selectBest_snd (u : List Char) (b : Option QueryTemplate) (m : Nat)
    (ts : List QueryTemplate) :
    (selectBest u b m ts).2 = max m (maxScoreOf u ts) := by
  induction ts generalizing b m with
  | nil => simp [selectBest, maxScoreOf]
  | cons t rest ih =>
    simp only [selectBest, maxScoreOf, List.foldr_cons]
    by_cases hsm : templateScore u t > m
    · rw [if_pos hsm, ih]
      have := maxScoreOf u rest
      simp only [maxScoreOf]
      omega
    · rw [if_neg hsm, ih]
      simp only [maxScoreOf]
      omega

theorem selectBest_fst (u : List Char) (b : Option QueryTemplate) (m : Nat)
    (ts : List QueryTemplate) :
    (selectBest u b m ts).1 =
      if maxScoreOf u ts > m then
        ts.find? (fun t => templateScore u t == maxScoreOf u ts)
      else b := by
  induction ts generalizing b m with
  | nil => simp [selectBest, maxScoreOf]
  | cons t rest ih =>
    have hmax : maxScoreOf u (t :: rest)
        = max (templateScore u t) (maxScoreOf u rest) := rfl
    by_cases hsm : templateScore u t > m
    · simp only [selectBest, if_pos hsm]
      rw [ih]
      by_cases hms : maxScoreOf u rest > templateScore u t
      · rw [if_pos hms]
        have h1 : maxScoreOf u (t :: rest) = maxScoreOf u rest := by
          rw [hmax]
          omega
        have h2 : maxScoreOf u (t :: rest) > m := by omega
        rw [if_pos h2, h1, List.find?_cons]
        have h3 : (templateScore u t == maxScoreOf u rest) = false :=
          beq_eq_false_iff_ne.mpr (by omega)
        rw [h3]
      · rw [if_neg hms]
        have h1 : maxScoreOf u (t :: rest) = templateScore u t := by
          rw [hmax]
          omega
        have h2 : maxScoreOf u (t :: rest) > m := by omega
        rw [if_pos h2, h1, List.find?_cons]
        have h3 : (templateScore u t == templateScore u t) = true := by simp
        rw [h3]
    · simp only [selectBest, if_neg hsm]
      rw [ih]
      by_cases hmm : maxScoreOf u rest > m
      · rw [if_pos hmm]
        have h1 : maxScoreOf u (t :: rest) = maxScoreOf u rest := by
          rw [hmax]
          omega
        have h2 : maxScoreOf u (t :: rest) > m := by omega
        rw [if_pos h2, h1, List.find?_cons]
        have h3 : (templateScore u t == maxScoreOf u rest) = false :=
          beq_eq_false_iff_ne.mpr (by omega)
        rw [h3]
      · rw [if_neg hmm]
        have h2 : ¬(maxScoreOf u (t :: rest) > m) := by
          rw [hmax]
          omega
        rw [if_neg h2]

/-- `find_best_template` selects the first template attaining the
maximum score, or the default when the maximum is 0. -/
theorem findBestTemplate_eq_firstMax (uq : String) :
    findBestTemplate uq = firstMaxResolve uq := by
  unfold findBestTemplate firstMaxResolve
  have hsnd := selectBest_snd (lowerL uq.data) none 0 getFallbackTemplates
  have hfst := selectBest_fst (lowerL uq.data) none 0 getFallbackTemplates
  by_cases hm : maxScoreOf (lowerL uq.data) getFallbackTemplates = 0
  · rw [hm] at hfst hsnd
    simp only [Nat.lt_irrefl, if_false, gt_iff_lt] at hfst
    rw [if_pos hm]
    rcases hsb : selectBest (lowerL uq.data) none 0 getFallbackTemplates with ⟨b1, b2⟩
    rw [hsb] at hfst
    simp only at hfst
    simp only [hsb, hfst]
  · rw [if_neg hm]
    have hpos : maxScoreOf (lowerL uq.data) getFallbackTemplates > 0 := by omega
    rw [if_pos hpos] at hfst
    rcases hsb : selectBest (lowerL uq.data) none 0 getFallbackTemplates with ⟨b1, b2⟩
    rw [hsb] at hfst hsnd
    simp only at hfst hsnd
    have hb2 : b2 = maxScoreOf (lowerL uq.data) getFallbackTemplates := by
      rw [hsnd]
      omega
    simp only [hsb, hfst, hb2]
    rcases hf : List.find? (fun t => templateScore (lowerL uq.data) t
        == maxScoreOf (lowerL uq.data) getFallbackTemplates) getFallbackTemplates with _ | t
    · simp
    · simp only
      rw [if_neg hm]

theorem foldl_count (p : String → Bool) (l : List String) (n : Nat) :
    l.foldl (fun acc k => if p k then acc + 1 else acc) n
      = n + (l.map (fun k => if p k then 1 else 0)).sum := by
  induction l generalizing n with
  | nil => simp
  | cons k rest ih =>
    by_cases hp : p k
    · simp [hp, ih]
      omega
    · simp [hp, ih]

/-- The code's two scoring passes compute the spec's single-sum
formula. -/
theorem templateScore_eq_specScore (u : List Char) (t : QueryTemplate) :
    templateScore u t = specScore u t := by
  unfold templateScore specScore
  rw [foldl_count, foldl_count]
  simp only [Nat.zero_add]
  generalize t.keywords = l
  induction l with
  | nil => simp
  | cons k rest ih =>
    simp only [List.map_cons, List.sum_cons]
    have hk : (if containsSub (lowerL k.data) u then 1 else 0)
        + (if (decide (k.length > 3) && containsSub (lowerL k.data) u) = true then 1 else 0)
        = (if containsSub (lowerL k.data) u then (if k.length > 3 then 2 else 1) else 0) := by
      by_cases hm : containsSub (lowerL k.data) u = true
        <;> by_cases hl : k.length > 3
        <;> simp [hm, hl]
    omega

theorem firstMax_eq_specResolve (uq : String) :
    firstMaxResolve uq = specResolve uq := by
  simp only [firstMaxResolve, specResolve, maxScoreOf, templateScore_eq_specScore]

/-- C7: `find_best_template` scores each template as +1 per keyword
occurring case-insensitively as a substring of the lower-cased text
plus +1 more per matched keyword longer than 3 characters, and returns
the first template in registry order attaining the maximum score (an
equal-scoring later template never replaces the current best); the
result is the deterministic function `specResolve` of the input text
and registry. -/
theorem c7_resolver_first_max (uq : String) :
    findBestTemplate uq = specResolve uq :=
  (findBestTemplate_eq_firstMax uq).trans (firstMax_eq_specResolve uq)

theorem templateScore_zero_of_no_match {u : List Char} {t : QueryTemplate}
    (h : ∀ k ∈ t.keywords, containsSub (lowerL k.data) u = false) :
    templateScore u t = 0 := by
  rw [templateScore_eq_specScore]
  unfold specScore
  apply List.sum_eq_zero
  intro x hx
  simp only [List.mem_map] at hx
  obtain ⟨k, hk, hx⟩ := hx
  rw [h k hk] at hx
  simp only [Bool.false_eq_true, if_false] at hx
  omega

theorem maxScoreOf_eq_zero {u : List Char} {ts : List QueryTemplate}
    (h : ∀ t ∈ ts, templateScore u t = 0) : maxScoreOf u ts = 0 := by
  induction ts with
  | nil => rfl
  | cons t rest ih =>
    have h1 : maxScoreOf u (t :: rest)
        = max (templateScore u t) (maxScoreOf u rest) := rfl
    rw [h1, h t (by simp), ih (fun t ht => h t (by simp [ht]))]
    simp

/-- C4 amended: on input in which no template keyword occurs, the
resolver returns the built-in default aggregate query together with the
fixed default label `デフォルト（総売上）` as the template name (a
sentinel string, not the absence of a name). -/
theorem c4_amended (uq : String)
    (h : ∀ t ∈ getFallbackTemplates, ∀ k ∈ t.keywords,
      containsSub (lowerL k.data) (lowerL uq.data) = false) :
    findBestTemplate uq = (getDefaultQuery, defaultTemplateLabel) := by
  rw [findBestTemplate_eq_firstMax]
  unfold firstMaxResolve
  have hm : maxScoreOf (lowerL uq.data) getFallbackTemplates = 0 :=
    maxScoreOf_eq_zero (fun t ht => templateScore_zero_of_no_match (h t ht))
  simp only [hm, if_pos]

/-- C4 counterexample: for the no-keyword input `"hello"` the resolver
returns the default query together with the nonempty default label
`デフォルト（総売上）` — a template name is returned (the pipeline
outcome's templateName is `some` of it), contradicting "with no
template name". -/
theorem c4_counterexample :
    findBestTemplate "hello" = (getDefaultQuery, defaultTemplateLabel) ∧
    defaultTemplateLabel ≠ "" ∧
    (processUserQuery noLlmEnv "hello").templateName = some defaultTemplateLabel ∧
    (processUserQuery noLlmEnv "hello").templateName ≠ none := by
  have h : (processUserQuery noLlmEnv "hello").templateName
      = some defaultTemplateLabel := rfl
  exact ⟨rfl, by decide, h, by rw [h]; simp⟩

/-- C4 amended witness: the amended claim instantiated at the concrete
keyword-free input `"hello"`. -/
theorem c4_witness :
    (∀ t ∈ getFallbackTemplates, ∀ k ∈ t.keywords,
      containsSub (lowerL k.data) (lowerL ("hello" : String).data) = false) ∧
    findBestTemplate "hello" = (getDefaultQuery, defaultTemplateLabel) :=
  ⟨by decide, c4_amended "hello" (by decide)⟩

/-- C5: when the model-generated SQL passes the Guard but executes to
zero rows, the Orchestrator falls back: it resolves a template, executes
that template's SQL, and the outcome has `usedFallback = true` with the
template's name. -/
theorem c5_empty_result_forces_fallback {σ ρ : Type} (env : PipelineEnv σ ρ)
    (uq : String) (sd : σ) (llm : LLMClientModel) (resp q : String)
    (hsd : env.salesData = some sd)
    (hllm : env.llmClient = some llm)
    (hgen : llm.genSql uq (env.schemaInfo sd) = .ok resp)
    (hval : validateAndSanitizeSql resp = .ok q)
    (hexec : executeSqlQuery env q = []) :
    processUserQuery env uq = fallbackRun env uq [q] ∧
    (processUserQuery env uq).usedFallback = true ∧
    (processUserQuery env uq).executedSql = (findBestTemplate uq).1 ∧
    (processUserQuery env uq).resultDf
      = executeSqlQuery env (findBestTemplate uq).1 ∧
    (processUserQuery env uq).templateName = some (findBestTemplate uq).2 := by
  have hp : processUserQuery env uq = fallbackRun env uq [q] := by
    simp only [processUserQuery, hsd, hllm, hgen, hval, hexec, List.isEmpty_nil,
      if_true]
  refine ⟨hp, ?_, ?_, ?_, ?_⟩ <;> rw [hp] <;> simp [fallbackRun]

/-- C5 witness: a concrete environment whose validated query returns no
rows, at which the fallback conclusion holds. -/
theorem c5_witness :
    processUserQuery emptyResultEnv "q"
      = fallbackRun emptyResultEnv "q" ["SELECT * FROM sales"] ∧
    (processUserQuery emptyResultEnv "q").usedFallback = true ∧
    (processUserQuery emptyResultEnv "q").executedSql = (findBestTemplate "q").1 ∧
    (processUserQuery emptyResultEnv "q").resultDf
      = executeSqlQuery emptyResultEnv (findBestTemplate "q").1 ∧
    (processUserQuery emptyResultEnv "q").templateName
      = some (findBestTemplate "q").2 :=
  c5_empty_result_forces_fallback emptyResultEnv "q" () fixedSqlLlm
    "```sql\nSELECT * FROM sales\n```" "SELECT * FROM sales"
    rfl rfl rfl rfl rfl

theorem templates_safe : ∀ t ∈ getFallbackTemplates, isSqlSafe t.sql = (true, "") := by
  intro t ht
  fin_cases ht <;> rfl

theorem default_safe : isSqlSafe getDefaultQuery = (true, "") := rfl

/-- The resolver's SQL is always one of the registry templates or the
default query. -/
theorem findBestTemplate_sql_mem (uq : String) :
    (findBestTemplate uq).1 = getDefaultQuery ∨
    ∃ t ∈ getFallbackTemplates, (findBestTemplate uq).1 = t.sql := by
  rw [findBestTemplate_eq_firstMax]
  unfold firstMaxResolve
  by_cases hm : maxScoreOf (lowerL uq.data) getFallbackTemplates = 0
  · simp [hm]
  · rw [if_neg hm]
    rcases hf : List.find? (fun t => templateScore (lowerL uq.data) t
        == maxScoreOf (lowerL uq.data) getFallbackTemplates) getFallbackTemplates
      with _ | t
    · simp
    · right
      exact ⟨t, List.mem_of_find?_eq_some hf, rfl⟩

/-- C8: the Template Resolver is total and every SQL it returns passes
the Guard's `is_sql_safe`; and every SQL string the Orchestrator hands
to the Analytics Engine (the execution trace of `process_user_query`)
is either the Guard's validation of some model response or the
resolver's pre-validated SQL — there is no third source. -/
theorem c8_no_third_source :
    (∀ uq : String, isSqlSafe (findBestTemplate uq).1 = (true, "")) ∧
    (∀ (σ ρ : Type) (env : PipelineEnv σ ρ) (uq q : String),
      q ∈ (processUserQuery env uq).execTrace →
      (∃ resp, validateAndSanitizeSql resp = .ok q) ∨
        q = (findBestTemplate uq).1) := by
  constructor
  · intro uq
    rcases findBestTemplate_sql_mem uq with h | ⟨t, ht, h⟩
    · rw [h]
      exact default_safe
    · rw [h]
      exact templates_safe t ht
  · intro σ ρ env uq q hq
    unfold processUserQuery at hq
    split at hq
    · simp at hq
    · split at hq
      · right
        simpa [fallbackRun] using hq
      · split at hq
        · right
          simpa [fallbackRun] using hq
        · rename_i resp hgen
          split at hq
          · right
            simpa [fallbackRun] using hq
          · rename_i q' hval
            split at hq
            · simp only [fallbackRun] at hq
              simp at hq
              rcases hq with hq | hq
              · exact Or.inl ⟨resp, hq ▸ hval⟩
              · exact Or.inr hq
            · simp at hq
              exact Or.inl ⟨resp, hq ▸ hval⟩

/-- C8 witness: at a concrete no-LLM environment the single executed
query is the resolver's default SQL, which passes the Guard. -/
theorem c8_witness :
    isSqlSafe (findBestTemplate "hello").1 = (true, "") ∧
    getDefaultQuery ∈ (processUserQuery noLlmEnv "hello").execTrace ∧
    ((∃ resp, validateAndSanitizeSql resp = .ok getDefaultQuery) ∨
      getDefaultQuery = (findBestTemplate "hello").1) := by
  have hmem : getDefaultQuery ∈ (processUserQuery noLlmEnv "hello").execTrace := by
    have h : (processUserQuery noLlmEnv "hello").execTrace = [getDefaultQuery] := rfl
    rw [h]
    simp
  exact ⟨c8_no_third_source.1 "hello", hmem,
    c8_no_third_source.2 Unit Unit noLlmEnv "hello" getDefaultQuery hmem⟩

/-- C6 (code bug): on the non-fallback path with an available LLM whose
summary call fails, the pipeline summary is the surfaced error string
returned by `generate_summary_with_llm` — not the deterministic
rule-based summary: the source's `except` fallback in
`generate_analysis_summary` is unreachable because
`generate_summary_with_llm` catches its own exception and returns an
error message instead of raising. -/
theorem c6_llm_failure_surfaces_error :
    generateAnalysisSummary (some failingSummaryLlm) "q" "SELECT 1" oneNumColDf
      false none = "サマリー生成中にエラーが発生しました: boom" ∧
    createFallbackSummary "q" "SELECT 1" oneNumColDf none
      = "• 1 件のレコードが該当しました" ∧
    generateAnalysisSummary (some failingSummaryLlm) "q" "SELECT 1" oneNumColDf
      false none ≠ createFallbackSummary "q" "SELECT 1" oneNumColDf none := by
  have h1 : generateAnalysisSummary (some failingSummaryLlm) "q" "SELECT 1"
      oneNumColDf false none = "サマリー生成中にエラーが発生しました: boom" := rfl
  have h2 : createFallbackSummary "q" "SELECT 1" oneNumColDf none
      = "• 1 件のレコードが該当しました" := rfl
  exact ⟨h1, h2, by rw [h1, h2]; decide⟩

theorem collapseAux_all_space {b : Bool} {l : List Char} :
    ∀ c ∈ collapseAux b l, isWS c = true → c = ' ' := by
  induction l generalizing b with
  | nil => intro c hc; simp [collapseAux] at hc
  | cons d rest ih =>
    intro c hc hws
    simp only [collapseAux] at hc
    split at hc
    · rcases List.mem_append.mp hc with h1 | h1
      · split at h1
        · simp at h1
        · simpa using h1
      · exact ih c h1 hws
    · rename_i hd
      rcases List.mem_cons.mp hc with h1 | h1
      · subst h1
        exact absurd hws (by simpa using hd)
      · exact ih c h1 hws

theorem collapseAux_true_head {l : List Char} :
    ∀ c, (collapseAux true l).head? = some c → isWS c = false := by
  induction l with
  | nil => intro c hc; simp [collapseAux] at hc
  | cons d rest ih =>
    intro c hc
    simp only [collapseAux] at hc
    split at hc
    · exact ih c (by simpa using hc)
    · rename_i hd
      simp only [List.head?_cons, Option.some.injEq] at hc
      subst hc
      simpa using hd

theorem collapseAux_noAdj {b : Bool} {l : List Char} : noAdjWS (collapseAux b l) := by
  induction l generalizing b with
  | nil => simp [collapseAux, noAdjWS]
  | cons d rest ih =>
    unfold noAdjWS
    simp only [collapseAux]
    split
    · rename_i hd
      cases b
      · show List.Chain' _ ([' '] ++ collapseAux true rest)
        rw [List.singleton_append]
        refine List.chain'_cons'.mpr ⟨?_, ih⟩
        intro y hy
        have hws := collapseAux_true_head y hy
        simp [hws]
      · show List.Chain' _ ([] ++ collapseAux true rest)
        rw [List.nil_append]
        exact ih
    · rename_i hd
      refine List.chain'_cons'.mpr ⟨?_, ih⟩
      intro y hy
      simp only [not_and]
      intro hws
      exact absurd hws (by simpa using hd)

theorem collapseAux_fixed {l : List Char} :
    ∀ {b : Bool}, (∀ c ∈ l, isWS c = true → c = ' ') → noAdjWS l →
    (b = true → ∀ c, l.head? = some c → isWS c = false) →
    collapseAux b l = l := by
  induction l with
  | nil => intros; rfl
  | cons d rest ih =>
    intro b h1 h2 hb
    by_cases hd : isWS d = true
    · have hd' : d = ' ' := h1 d (by simp) hd
      cases b
      · have hrest : collapseAux true rest = rest := by
          apply ih (fun c hc hws => h1 c (by simp [hc]) hws)
            ((List.chain'_cons'.mp h2).2)
          intro _ c hc
          have hR := (List.chain'_cons'.mp h2).1 c hc
          by_contra hws
          exact hR ⟨hd, by simpa using hws⟩
        simp only [collapseAux, hd, if_true]
        rw [hrest, hd']
        rfl
      · exact absurd hd (by simp [hb rfl d rfl])
    · have hd' : isWS d = false := by simpa using hd
      simp only [collapseAux, hd', Bool.false_eq_true, if_false]
      congr 1
      apply ih (fun c hc hws => h1 c (by simp [hc]) hws)
        ((List.chain'_cons'.mp h2).2)
      intro hfalse
      exact absurd hfalse (by simp)

theorem subNlAux_fixed {l : List Char} {b : Bool} (h : ('\n' : Char) ∉ l) :
    subNlAux b l = l := by
  induction l generalizing b with
  | nil => rfl
  | cons d rest ih =>
    have hd : d ≠ '\n' := fun hh => h (hh ▸ List.mem_cons_self d rest)
    simp only [subNlAux, hd, Bool.false_eq_true, if_false]
    rw [ih (fun hm => h (List.mem_cons_of_mem d hm))]

theorem stripSemis_fixed {l : List Char} (h : (';' : Char) ∉ l) :
    stripSemis l = l := by
  unfold stripSemis
  rcases hrev : l.reverse with _ | ⟨d, tail⟩
  · simpa using (List.reverse_eq_nil_iff.mp hrev).symm
  · have hdl : d ∈ l := by
      have hdr : d ∈ l.reverse := by rw [hrev]; simp
      simpa using hdr
    have hd : d ≠ ';' := fun hh => h (hh ▸ hdl)
    rw [List.dropWhile_cons_of_neg (by simpa using hd), ← hrev,
      List.reverse_reverse]

theorem getLast?_mem_of_eq {l : List Char} {c : Char} (h : l.getLast? = some c) :
    c ∈ l := by
  obtain ⟨hne, hc⟩ := List.mem_getLast?_eq_getLast (l := l) (x := c) (by rw [h]; rfl)
  rw [hc]
  exact List.getLast_mem hne

theorem headOK_of_prefix {m l : List Char} (hp : m <+: l)
    (h : ∀ c, l.head? = some c → isWS c = false) :
    ∀ c, m.head? = some c → isWS c = false := by
  intro c hc
  obtain ⟨t, ht⟩ := hp
  cases m with
  | nil => simp at hc
  | cons x xs =>
    simp only [List.head?_cons, Option.some.injEq] at hc
    subst hc
    apply h
    rw [← ht]
    rfl

theorem pyStripRight_prefixOf (l : List Char) : pyStripRight l <+: l := by
  have h1 := List.dropWhile_suffix (l := l.reverse) (p := isWS)
  have h2 := List.reverse_prefix.mpr h1
  simpa [pyStripRight] using h2

theorem stripSemis_prefixOf (l : List Char) : stripSemis l <+: l := by
  have h1 := List.dropWhile_suffix (l := l.reverse) (p := fun c => c = ';')
  have h2 := List.reverse_prefix.mpr h1
  simpa [stripSemis] using h2

theorem headOK_pyStrip (x : List Char) :
    ∀ c, (pyStrip x).head? = some c → isWS c = false := by
  apply headOK_of_prefix (pyStripRight_prefixOf _)
  intro c hc
  have h1 := List.head?_dropWhile_not isWS x
  unfold pyStripLeft at hc
  rw [hc] at h1
  exact h1

theorem headOK_subNl {x : List Char}
    (h : ∀ c, x.head? = some c → isWS c = false) :
    ∀ c, (subNl x).head? = some c → isWS c = false := by
  cases x with
  | nil => intro c hc; simp [subNl, subNlAux] at hc
  | cons d rest =>
    intro c hc
    have hd : isWS d = false := h d rfl
    have hdn : d ≠ '\n' := by
      intro hh
      rw [hh] at hd
      exact absurd hd (by decide)
    simp only [subNl, subNlAux, hdn, Bool.false_eq_true, if_false,
      List.head?_cons, Option.some.injEq] at hc
    subst hc
    exact hd

theorem headOK_stripSemis {x : List Char}
    (h : ∀ c, x.head? = some c → isWS c = false) :
    ∀ c, (stripSemis x).head? = some c → isWS c = false :=
  headOK_of_prefix (stripSemis_prefixOf x) h

/-- When a normalized query has no trailing space and no semicolon,
normalizing it again is the identity. -/
theorem normalizeSql_fixed {s v : List Char} (hv : v = normalizeSql s)
    (hsemi : (';' : Char) ∉ v) (hlast : v.getLast? ≠ some ' ') :
    normalizeSql v = v := by
  have hvm : v = collapseAux false (stripSemis (subNl (pyStrip s))) := hv
  have hall : ∀ c ∈ v, isWS c = true → c = ' ' := by
    rw [hvm]
    exact collapseAux_all_space
  have hadj : noAdjWS v := by
    rw [hvm]
    exact collapseAux_noAdj
  have hheadm : ∀ c, (stripSemis (subNl (pyStrip s))).head? = some c → isWS c = false :=
    headOK_stripSemis (headOK_subNl (headOK_pyStrip _))
  have hheadv : ∀ c, v.head? = some c → isWS c = false := by
    rw [hvm]
    rcases hm2 : stripSemis (subNl (pyStrip s)) with _ | ⟨d, rest⟩
    · intro c hc
      simp [collapseAux] at hc
    · have hd : isWS d = false := hheadm d (by rw [hm2]; rfl)
      intro c hc
      simp only [collapseAux, hd, Bool.false_eq_true, if_false,
        List.head?_cons, Option.some.injEq] at hc
      subst hc
      exact hd
  have hnl : ('\n' : Char) ∉ v := fun hmem =>
    absurd (hall '\n' hmem (by decide)) (by decide)
  have hlast' : ∀ c, v.getLast? = some c → isWS c = false := by
    intro c hc
    by_contra hws
    have hws' : isWS c = true := by simpa using hws
    have hcsp := hall c (getLast?_mem_of_eq hc) hws'
    exact hlast (hcsp ▸ hc)
  have hps : pyStrip v = v := by
    unfold pyStrip pyStripLeft pyStripRight
    have h1 : v.dropWhile isWS = v := by
      rcases hvd : v with _ | ⟨d, rest⟩
      · rfl
      · rw [List.dropWhile_cons_of_neg]
        simp [hheadv d (by rw [hvd]; rfl)]
    rw [h1]
    have h2 : v.reverse.dropWhile isWS = v.reverse := by
      rcases hrev : v.reverse with _ | ⟨d, rest⟩
      · rfl
      · have hd : v.getLast? = some d := by
          rw [← List.head?_reverse, hrev]
          rfl
        rw [List.dropWhile_cons_of_neg (by simp [hlast' d hd])]
    rw [h2, List.reverse_reverse]
  show collapseWS (stripSemis (subNl (pyStrip v))) = v
  rw [hps, show subNl v = v from subNlAux_fixed hnl, stripSemis_fixed hsemi]
  exact collapseAux_fixed hall hadj (fun hfalse => absurd hfalse (by simp))

/-- C9 counterexample: `"SELECT 1 ;"` validates to `"SELECT 1 "`
(trailing-semicolon stripping leaves a trailing space), and
re-validating `"SELECT 1 "` succeeds but returns the different string
`"SELECT 1"`: validation is not idempotent on every validated query. -/
theorem c9_counterexample :
    sanitizeSql "SELECT 1 ;" = .ok "SELECT 1 " ∧
    sanitizeSql "SELECT 1 " = .ok "SELECT 1" ∧
    ("SELECT 1 " : String) ≠ "SELECT 1" :=
  ⟨rfl, rfl, by decide⟩

/-- C9 amended: re-validating a `ValidatedQuery` that does not end in a
space always succeeds and returns it unchanged (a validated query can
end in one space only when the original had trailing semicolons; there
re-validation succeeds but strips that space, as the counterexample
shows). -/
theorem c9_amended {s v : String} (h : sanitizeSql s = .ok v)
    (hlast : v.data.getLast? ≠ some ' ') :
    sanitizeSql v = .ok v := by
  obtain ⟨hne, hv, hsel, hkw, hsemi, hdash, hstar, hfrom, hjoin⟩ :=
    sanitizeSql_ok_anatomy h
  have hnorm : normalizeSql v.data = v.data :=
    normalizeSql_fixed hv (by simpa using hsemi) hlast
  have hvne : v.data ≠ [] := by
    intro hd
    rw [hd] at hsel
    exact absurd hsel (by decide)
  have hvE : v.data.isEmpty = false := by
    rcases hvd : v.data with _ | ⟨d, rest⟩
    · exact absurd hvd hvne
    · rfl
  simp only [sanitizeSql, hvE, Bool.false_eq_true, if_false, hnorm, hsel,
    Bool.not_true, if_false, hkw, hsemi, hdash, hstar, Bool.or_self, hfrom]
  by_cases hj : searchWord "JOIN".data false (upperL v.data) = true
  · simp only [hj, if_true, hjoin hj]
  · simp only [hj, Bool.false_eq_true, if_false]

/-- C9 amended witness: a concrete validated query without trailing
space re-validates to itself. -/
theorem c9_witness :
    sanitizeSql "SELECT * FROM sales" = .ok "SELECT * FROM sales" ∧
    ("SELECT * FROM sales" : String).data.getLast? ≠ some ' ' ∧
    sanitizeSql ("SELECT * FROM sales" : String)
      = .ok "SELECT * FROM sales" :=
  ⟨by rfl, by decide, c9_amended (s := "SELECT * FROM sales") (by rfl) (by decide)⟩
